import Mathlib

/-!
Verification development for the SVG path loader
(`src/graphics/src/SVGLoader.cc`).

The C++ source is shallowly embedded over an arbitrary linear ordered
field `α` (instantiated at `ℚ` for executable checks and available at
`ℝ` for the transcendental parts).  `double` arithmetic is idealised as
exact field arithmetic.  Transcendental library functions (`sin`, `cos`,
`acos`, `sqrt`, `tan`) and the constant `GZ_PI` are threaded through an
explicit oracle record `TrigOps`; theorems quantify over the oracle, so
they hold in particular for the real interpretation.

C++ undefined behaviour (out-of-bounds `std::vector` indexing,
`back()`/`front()` on an empty container) is made observable with an
`Except Fault` result; a `while` loop of the source whose progress is
data-dependent (it can genuinely diverge) is given an explicit fuel
counter, with `Fault.noFuel` reporting that no amount of fuel finishes
the loop.
-/

namespace SVGSpec

/-- 2D point, embedding `gz::math::Vector2d`. -/
structure Vec2 (α : Type) where
  x : α
  y : α
deriving DecidableEq, Repr

/-- `gz::math::Vector2d::Zero`. -/
def Vec2.zero {α : Type} [LinearOrderedField α] : Vec2 α := ⟨0, 0⟩

/-- Squared Euclidean distance between two points. -/
def dist2 {α : Type} [LinearOrderedField α] (a b : Vec2 α) : α :=
  (a.x - b.x) * (a.x - b.x) + (a.y - b.y) * (a.y - b.y)

/-- Embedding of `SVGCommand`: a command letter and its numeric
arguments. -/
structure SVGCommand (α : Type) where
  cmd : Char
  numbers : List α
deriving DecidableEq, Repr

/-- 3×3 homogeneous matrix, embedding `gz::math::Matrix3d` (row major:
`Mat3 a00 a01 a02 a10 a11 a12 a20 a21 a22`, matching the
`Matrix3d(v00, v01, v02, v10, v11, v12, v20, v21, v22)` constructor). -/
structure Mat3 (α : Type) where
  a00 : α
  a01 : α
  a02 : α
  a10 : α
  a11 : α
  a12 : α
  a20 : α
  a21 : α
  a22 : α
deriving DecidableEq, Repr

/-- `gz::math::Matrix3d::Identity`. -/
def Mat3.identity {α : Type} [LinearOrderedField α] : Mat3 α :=
  ⟨1, 0, 0, 0, 1, 0, 0, 0, 1⟩

/-- Matrix product, embedding `Matrix3d::operator*`. -/
def Mat3.mul {α : Type} [LinearOrderedField α] (m n : Mat3 α) : Mat3 α :=
  ⟨m.a00 * n.a00 + m.a01 * n.a10 + m.a02 * n.a20,
   m.a00 * n.a01 + m.a01 * n.a11 + m.a02 * n.a21,
   m.a00 * n.a02 + m.a01 * n.a12 + m.a02 * n.a22,
   m.a10 * n.a00 + m.a11 * n.a10 + m.a12 * n.a20,
   m.a10 * n.a01 + m.a11 * n.a11 + m.a12 * n.a21,
   m.a10 * n.a02 + m.a11 * n.a12 + m.a12 * n.a22,
   m.a20 * n.a00 + m.a21 * n.a10 + m.a22 * n.a20,
   m.a20 * n.a01 + m.a21 * n.a11 + m.a22 * n.a21,
   m.a20 * n.a02 + m.a21 * n.a12 + m.a22 * n.a22⟩

/-- Application of the matrix to the homogeneous point `(x, y, 1)`,
keeping the first two coordinates — this is how `PathCommands` applies
`_path.transform` to each polyline point. -/
def Mat3.apply2 {α : Type} [LinearOrderedField α] (m : Mat3 α) (p : Vec2 α) : Vec2 α :=
  ⟨m.a00 * p.x + m.a01 * p.y + m.a02 * 1,
   m.a10 * p.x + m.a11 * p.y + m.a12 * 1⟩

/-- Embedding of `SVGPath`. -/
structure SVGPath (α : Type) where
  id : List Char
  style : List Char
  transform : Mat3 α
  subpaths : List (List (SVGCommand α))
  polylines : List (List (Vec2 α))
deriving DecidableEq, Repr

/-- Observable failure of the C++ source in the embedding:
`oob` marks an out-of-bounds `std::vector` index (undefined behaviour),
`backEmpty`/`frontEmpty` mark `back()`/`front()` on an empty container
(undefined behaviour), and `noFuel` marks exhaustion of the explicit
fuel given to a source `while` loop that can diverge. -/
inductive Fault where
  | oob
  | backEmpty
  | frontEmpty
  | noFuel
deriving DecidableEq, Repr

/-- Decidable equality for `Except` results (used to state concrete
evaluations of the embedded fallible operations). -/
instance instDecEqExcept {ε β : Type} [DecidableEq ε] [DecidableEq β] :
    DecidableEq (Except ε β) := fun a b =>
  match a, b with
  | .error x, .error y =>
    if h : x = y then .isTrue (by rw [h])
    else .isFalse (fun hc => h (by injection hc))
  | .error _, .ok _ => .isFalse (fun hc => Except.noConfusion hc)
  | .ok _, .error _ => .isFalse (fun hc => Except.noConfusion hc)
  | .ok x, .ok y =>
    if h : x = y then .isTrue (by rw [h])
    else .isFalse (fun hc => h (by injection hc))

/-- Oracle for the transcendental functions and `GZ_PI` used by the
source.  All theorems about trig-dependent code quantify over this
record, so they hold for every interpretation, in particular the real
one (`Real.sin`, `Real.cos`, `Real.arccos`, `Real.sqrt`, `Real.tan`,
`Real.pi`). -/
structure TrigOps (α : Type) where
  sin : α → α
  cos : α → α
  arccos : α → α
  sqrt : α → α
  tan : α → α
  pi : α

/-- An arbitrary interpretation of the transcendental oracle over `ℚ`,
used only to instantiate oracle-polymorphic theorems on concrete
inputs whose control flow never consults the oracle. -/
def ratOpsZero : TrigOps ℚ :=
  ⟨fun _ => 0, fun _ => 0, fun _ => 0, fun _ => 0, fun _ => 0, 0⟩

section Parsing

variable {α : Type} [LinearOrderedField α]

/-- Modelled from the spec: "all position/size/rotation/flag values are
decimal numbers" parsed by the C library's `atof`/`std::stod`, which are
external to the repository sources.  Parses an optional sign, integer
digits, and an optional fraction after a decimal point, returning the
value of the longest such prefix (`0` when there is none; the
out-of-range and `stod`-throwing cases are never exercised by the
claims). -/
def parseDecDigits (ds : List Char) (acc : α) : α × List Char :=
  match ds with
  | [] => (acc, [])
  | c :: rest =>
    if c.isDigit then
      parseDecDigits rest (acc * 10 + ((c.toNat - '0'.toNat : ℕ) : α))
    else (acc, c :: rest)

/-- Fraction part: value of `ds` read as digits after the decimal
point. -/
def parseDecFrac (ds : List Char) (scale : α) : α :=
  match ds with
  | [] => 0
  | c :: rest =>
    if c.isDigit then
      ((c.toNat - '0'.toNat : ℕ) : α) / scale + parseDecFrac rest (scale * 10)
    else 0

/-- Modelled from the spec: decimal number parsing (see
`parseDecDigits`). -/
def parseDec (s : List Char) : α :=
  match s with
  | '-' :: rest =>
    let (ip, tail) := parseDecDigits rest (0 : α)
    match tail with
    | '.' :: frac => -(ip + parseDecFrac frac 10)
    | _ => -ip
  | _ =>
    let (ip, tail) := parseDecDigits s (0 : α)
    match tail with
    | '.' :: frac => ip + parseDecFrac frac 10
    | _ => ip

/-- The tokenizer's command-letter lookup string
(`std::string lookup = "aAcCmMqQlLvVhHzZ";`). -/
def lookupChars : List Char := "aAcCmMqQlLvVhHzZ".toList

/-- One number token: `split(token, ",")` followed by `atof` on each
piece.  `gz::common::split` (external to `src/`) has `strtok` semantics:
it returns the maximal nonempty runs of non-delimiter characters. -/
def splitOnChar (d : Char) (s : List Char) : List (List Char) :=
  ((s.splitOn d).filter (fun t => ¬ t.isEmpty))

/-- Numbers contributed by one non-command token of the path data. -/
def numbersOfToken (tok : List Char) : List α :=
  (splitOnChar ',' tok).map parseDec

/-- State-accumulating loop of `SVGLoader::Implementation::PathCommands`
over the whitespace-separated tokens: `lastCmd` starts as the sentinel
`'x'` (not in the lookup set), numbers accumulate onto the pending
command, and a token whose first character is in the lookup set emits
the pending command and starts a new one.  An empty token has
`token[0] == '\0'` (not in the lookup set) and contributes the numbers
of splitting the empty string (none, with `strtok` semantics). -/
def pathCmdsLoop (tokens : List (List Char)) (cmds : List (SVGCommand α))
    (lastCmd : Char) (numbers : List α) :
    List (SVGCommand α) × Char × List α :=
  match tokens with
  | [] => (cmds, lastCmd, numbers)
  | tok :: rest =>
    match tok with
    | [] => pathCmdsLoop rest cmds lastCmd (numbers ++ numbersOfToken [])
    | c :: _ =>
      if lookupChars.contains c then
        let cmds' := if lastCmd ≠ 'x' then cmds ++ [⟨lastCmd, numbers⟩] else cmds
        pathCmdsLoop rest cmds' c []
      else
        pathCmdsLoop rest cmds lastCmd (numbers ++ numbersOfToken tok)

/-- The flat command list produced by the token loop of `PathCommands`,
including the final flush of the pending command. -/
def pathCmds (tokens : List (List Char)) : List (SVGCommand α) :=
  let (cmds, lastCmd, numbers) := pathCmdsLoop tokens [] 'x' []
  if lastCmd ≠ 'x' then cmds ++ [⟨lastCmd, numbers⟩] else cmds

end Parsing

section SplitExpand

variable {α : Type} [LinearOrderedField α]

/-- Embedding of `SVGLoader::Implementation::SplitSubpaths`.  Returns
the C++ `bool` result together with the subpath list written through
the output parameter (`gzerr` is logged exactly when the result is
`false`).  When the first command is not a move command the source
calls `_subpaths.back()` on an empty vector: undefined behaviour,
reported as `Fault.backEmpty`. -/
def splitSubpathsLoop (cmds : List (SVGCommand α))
    (subpaths : List (List (SVGCommand α))) :
    Except Fault (List (List (SVGCommand α))) :=
  match cmds with
  | [] => .ok subpaths
  | cmd :: rest =>
    let subpaths' := if cmd.cmd.toLower = 'm' then subpaths ++ [[]] else subpaths
    match subpaths'.getLast? with
    | none => .error .backEmpty
    | some last =>
      splitSubpathsLoop rest (subpaths'.dropLast ++ [last ++ [cmd]])

/-- `SplitSubpaths`: empty input logs `gzerr` and returns `false`
with `_subpaths` untouched; otherwise the loop distributes commands,
opening a new subpath at each (case-insensitive) move command. -/
def splitSubpaths (cmds : List (SVGCommand α)) :
    Except Fault (Bool × List (List (SVGCommand α))) :=
  if cmds.isEmpty then .ok (false, [])
  else (splitSubpathsLoop cmds []).map (fun sp => (true, sp))

/-- The fixed arity looked up by `ExpandCommands` for a command letter
(`0` for letters with no entry, e.g. `q`, `z` or unknown letters). -/
def arityOf (c : Char) : ℕ :=
  if c.toLower = 'a' then 7
  else if c.toLower = 'c' then 6
  else if c.toLower = 'm' then 2
  else if c.toLower = 'l' then 2
  else if c.toLower = 'v' then 1
  else if c.toLower = 'h' then 1
  else 0

/-- The `while (n < size)` grouping loop of `ExpandCommands` for a
single raw command.  The source indexes `xCmd.numbers[i + n]` for
`i < numberCount` without a bound check: when `n + numberCount`
exceeds the size this is an out-of-bounds read (`Fault.oob`).  When
`numberCount = 0` and the command carries numbers the loop never
advances `n`; the explicit fuel makes that observable
(`Fault.noFuel` for every fuel value). -/
def expandGroupLoop (c : Char) (numbers : List α) (numberCount : ℕ)
    (fuel : ℕ) (n : ℕ) (acc : List (SVGCommand α)) :
    Except Fault (List (SVGCommand α)) :=
  match fuel with
  | 0 => if n < numbers.length then .error .noFuel else .ok acc
  | fuel + 1 =>
    if n < numbers.length then
      if n + numberCount ≤ numbers.length then
        expandGroupLoop c numbers numberCount fuel (n + numberCount)
          (acc ++ [⟨c, (numbers.drop n).take numberCount⟩])
      else .error .oob
    else .ok acc

/-- Per-command body of `ExpandCommands`: a `z`/`Z` command is pushed
unchanged, then the grouping loop splits the carried numbers into
arity-sized slices. -/
def expandOneCommand (fuel : ℕ) (xCmd : SVGCommand α)
    (subpath : List (SVGCommand α)) : Except Fault (List (SVGCommand α)) :=
  let numberCount := arityOf xCmd.cmd
  let subpath' := if xCmd.cmd.toLower = 'z' then subpath ++ [xCmd] else subpath
  expandGroupLoop xCmd.cmd xCmd.numbers numberCount fuel 0 subpath'

/-- One subpath of `ExpandCommands`. -/
def expandSubpath (fuel : ℕ) (compressed : List (SVGCommand α))
    (subpath : List (SVGCommand α)) : Except Fault (List (SVGCommand α)) :=
  match compressed with
  | [] => .ok subpath
  | xCmd :: rest => do
    let subpath' ← expandOneCommand fuel xCmd subpath
    expandSubpath fuel rest subpath'

/-- Embedding of `SVGLoader::Implementation::ExpandCommands`: the list
of expanded subpaths appended to `_path.subpaths`. -/
def expandCommands (fuel : ℕ) (subpaths : List (List (SVGCommand α))) :
    Except Fault (List (List (SVGCommand α))) :=
  match subpaths with
  | [] => .ok []
  | compressed :: rest => do
    let sub ← expandSubpath fuel compressed []
    let subs ← expandCommands fuel rest
    return sub :: subs

end SplitExpand

section Tessellation

variable {α : Type} [LinearOrderedField α] [FloorRing α]
  [DecidableRel ((· < ·) : α → α → Prop)] [DecidableEq α]

/-- The sampling resolution fixed by the constructor
`SVGLoader::SVGLoader`: `1.0 / std::max(1u, _samples)`. -/
def svgResolution (samples : ℕ) : α := 1 / ((max 1 samples : ℕ) : α)

/-- Embedding of `bezierInterpolate`: the cubic Bernstein form
`B(t) = (1-t)³ p0 + 3t(1-t)² p1 + 3t²(1-t) p2 + t³ p3`. -/
def bezierInterpolate (t : α) (p0 p1 p2 p3 : Vec2 α) : Vec2 α :=
  let t_1 := 1 - t
  let t_1_2 := t_1 * t_1
  let t_1_3 := t_1_2 * t_1
  let t2 := t * t
  let t3 := t2 * t
  ⟨t_1_3 * p0.x + 3 * t * t_1_2 * p1.x + 3 * t2 * t_1 * p2.x + t3 * p3.x,
   t_1_3 * p0.y + 3 * t * t_1_2 * p1.y + 3 * t2 * t_1 * p2.y + t3 * p3.y⟩

/-- The `while (t < 1.0)` sampling loop of `cubicBezier`, starting at
`t = step` and advancing by `step`.  The source loop terminates exactly
when `step` is positive; the constructor guarantees
`0 < resolution ≤ 1`, and the conjunct `0 < step` in the guard makes
the recursion well founded (for `step ≤ 0`, where the source would
diverge, no claim applies). -/
def cubicBezierAux [FloorRing α] (p0 p1 p2 p3 : Vec2 α) (step t : α) :
    List (Vec2 α) :=
  if h : 0 < step ∧ t < 1 then
    bezierInterpolate t p0 p1 p2 p3 :: cubicBezierAux p0 p1 p2 p3 step (t + step)
  else []
termination_by (⌈(1 - t) / step⌉).toNat
decreasing_by
  obtain ⟨hs, ht⟩ := h
  have hpos : 0 < (1 - t) / step := div_pos (by linarith) hs
  have hceil : 0 < ⌈(1 - t) / step⌉ := Int.ceil_pos.mpr hpos
  have heq : (1 - (t + step)) / step = (1 - t) / step - 1 := by
    field_simp
    ring
  rw [heq, Int.ceil_sub_one]
  omega

/-- Embedding of `cubicBezier`: appends the interior samples and then
the exact endpoint `p3` to `_points`. -/
def cubicBezier (p0 p1 p2 p3 : Vec2 α) (step : α) (points : List (Vec2 α)) :
    List (Vec2 α) :=
  points ++ cubicBezierAux p0 p1 p2 p3 step step ++ [p3]

/-- Embedding of the helper `Sqr` (the `float` argument narrowing of
the source is idealised away as exact arithmetic). -/
def sqr (x : α) : α := x * x

/-- Embedding of `VecAng`: angle between two vectors via the clamped
`acos` of the normalised dot product, negated when the determinant
`ux*vy - uy*vx` is negative. -/
def vecAng (ops : TrigOps α) (ux uy vx vy : α) : α :=
  let uMag := ops.sqrt (ux * ux + uy * uy)
  let vMag := ops.sqrt (vx * vx + vy * vy)
  let r0 := (ux * vx + uy * vy) / (uMag * vMag)
  let r := if r0 < -1 then -1 else if 1 < r0 then 1 else r0
  let a := ops.arccos r
  if ux * vy < uy * vx then -a else a

/-- Embedding of `arcPath` (SVG endpoint-to-center conversion ported
from canvg).  `d = sqrt(dx*dx + dy*dy); d < 1e-6` is expressed on the
square (`dx*dx + dy*dy < 1e-12`), which is equivalent for the exact
nonnegative radicand.  The `static_cast<int>`/`unsigned` truncations of
the nonnegative quantities involved are modelled by `Int.floor`. -/
def arcPath (ops : TrigOps α) (p0 : Vec2 α) (rx0 ry0 rotxDeg : α)
    (largeArc sweepDirection : ℕ) (pEnd : Vec2 α) (step : α)
    (points : List (Vec2 α)) : List (Vec2 α) :=
  let rotx := rotxDeg / 180 * ops.pi
  let x1 := p0.x
  let y1 := p0.y
  let x2 := pEnd.x
  let y2 := pEnd.y
  let dx := x1 - x2
  let dy := y1 - y2
  if dx * dx + dy * dy < 1 / 1000000000000 ∨ rx0 < 1 / 1000000 ∨ ry0 < 1 / 1000000 then
    -- the arc degenerates to a line
    points ++ [pEnd]
  else
    let sinrx := ops.sin rotx
    let cosrx := ops.cos rotx
    -- 1) compute x1', y1'
    let x1p := cosrx * dx / 2 + sinrx * dy / 2
    let y1p := -sinrx * dx / 2 + cosrx * dy / 2
    let d1 := sqr x1p / sqr rx0 + sqr y1p / sqr ry0
    let rx := if 1 < d1 then rx0 * ops.sqrt d1 else rx0
    let ry := if 1 < d1 then ry0 * ops.sqrt d1 else ry0
    -- 2) compute cx', cy'
    let sa0 := sqr rx * sqr ry - sqr rx * sqr y1p - sqr ry * sqr x1p
    let sb := sqr rx * sqr y1p + sqr ry * sqr x1p
    let sa := if sa0 < 0 then 0 else sa0
    let s0 := if 0 < sb then ops.sqrt (sa / sb) else 0
    let s := if largeArc = sweepDirection then -s0 else s0
    let cxp := s * rx * y1p / ry
    let cyp := s * -ry * x1p / rx
    -- 3) compute cx, cy from cx', cy'
    let cx := (x1 + x2) / 2 + cosrx * cxp - sinrx * cyp
    let cy := (y1 + y2) / 2 + sinrx * cxp + cosrx * cyp
    -- 4) calculate theta1 and delta theta
    let ux := (x1p - cxp) / rx
    let uy := (y1p - cyp) / ry
    let vx := (-x1p - cxp) / rx
    let vy := (-y1p - cyp) / ry
    let a1 := vecAng ops 1 0 ux uy
    let da0 := vecAng ops ux uy vx vy
    let da1 := if largeArc ≠ 0 then
        (if 0 < da0 then da0 - 2 * ops.pi else 2 * ops.pi + da0)
      else da0
    -- rounding errors for half circles
    let da := if ops.pi - |da1| < 1 / 1000 then
        (if sweepDirection ≠ 0 then ops.pi else -ops.pi)
      else da1
    let t0 := cosrx
    let t1 := sinrx
    let t2 := -sinrx
    let t3 := cosrx
    let t4 := cx
    let t5 := cy
    -- split arc into max 90 degree segments
    let ndivs : ℕ := (⌊|da| / (ops.pi * (1 / 2)) + 1⌋).toNat
    let hda := (da / (ndivs : α)) / 2
    let kappa0 := |4 / 3 * (1 - ops.cos hda) / ops.sin hda|
    let kappa := if da < 0 then -kappa0 else kappa0
    let st := (List.range (ndivs + 1)).foldl
      (fun (st : α × α × α × α × List (Vec2 α)) (i : ℕ) =>
        let (px, py, ptanx, ptany, pts) := st
        let a := a1 + da * ((i : α) / (ndivs : α))
        let dxa := ops.cos a
        let dya := ops.sin a
        let pox := dxa * rx
        let poy := dya * ry
        let x := pox * t0 + poy * t2 + t4
        let y := pox * t1 + poy * t3 + t5
        let tx := -dya * rx * kappa
        let ty := dxa * ry * kappa
        let tanx := tx * t0 + ty * t2
        let tany := tx * t1 + ty * t3
        let pts' := if 0 < i then
            cubicBezier ⟨px, py⟩ ⟨px + ptanx, py + ptany⟩
              ⟨x - tanx, y - tany⟩ ⟨x, y⟩ step pts
          else pts
        (x, y, tanx, tany, pts'))
      (0, 0, 0, 0, points)
    st.2.2.2.2

/-- The `'m'`/`'l'` (relative) `while (i < count)` loop of
`SubpathToPolyline`: consumes coordinate pairs; an odd count makes the
source read `numbers[i+1]` out of bounds. -/
def polyPairsRel : List α → Vec2 α → List (Vec2 α) →
    Except Fault (Vec2 α × List (Vec2 α))
  | [], last, acc => .ok (last, acc)
  | x :: y :: rest, last, acc =>
    let p : Vec2 α := ⟨x + last.x, y + last.y⟩
    polyPairsRel rest p (acc ++ [p])
  | _ :: [], _, _ => .error .oob

/-- The `'M'`/`'L'` (absolute) loop of `SubpathToPolyline`. -/
def polyPairsAbs : List α → Vec2 α → List (Vec2 α) →
    Except Fault (Vec2 α × List (Vec2 α))
  | [], last, acc => .ok (last, acc)
  | x :: y :: rest, _, acc =>
    let p : Vec2 α := ⟨x, y⟩
    polyPairsAbs rest p (acc ++ [p])
  | _ :: [], _, _ => .error .oob

/-- The `'C'` (absolute cubic) loop of `SubpathToPolyline`: consumes
six numbers per curve and tessellates via `cubicBezier`. -/
def polyCubicAbs (step : α) : List α → Vec2 α → List (Vec2 α) →
    Except Fault (Vec2 α × List (Vec2 α))
  | [], last, acc => .ok (last, acc)
  | x1 :: y1 :: x2 :: y2 :: x3 :: y3 :: rest, last, acc =>
    let p1 : Vec2 α := ⟨x1, y1⟩
    let p2 : Vec2 α := ⟨x2, y2⟩
    let p3 : Vec2 α := ⟨x3, y3⟩
    polyCubicAbs step rest p3 (cubicBezier last p1 p2 p3 step acc)
  | _, _, _ => .error .oob

/-- The `'c'` (relative cubic) loop of `SubpathToPolyline`. -/
def polyCubicRel (step : α) : List α → Vec2 α → List (Vec2 α) →
    Except Fault (Vec2 α × List (Vec2 α))
  | [], last, acc => .ok (last, acc)
  | x1 :: y1 :: x2 :: y2 :: x3 :: y3 :: rest, last, acc =>
    let p1 : Vec2 α := ⟨x1 + last.x, y1 + last.y⟩
    let p2 : Vec2 α := ⟨x2 + last.x, y2 + last.y⟩
    let p3 : Vec2 α := ⟨x3 + last.x, y3 + last.y⟩
    polyCubicRel step rest p3 (cubicBezier last p1 p2 p3 step acc)
  | _, _, _ => .error .oob

/-- The `'A'` (absolute arc) loop of `SubpathToPolyline`: consumes
seven numbers per arc. -/
def polyArcAbs (ops : TrigOps α) (step : α) : List α → Vec2 α →
    List (Vec2 α) → Except Fault (Vec2 α × List (Vec2 α))
  | [], last, acc => .ok (last, acc)
  | rx :: ry :: xRot :: arcF :: sweepF :: x :: y :: rest, last, acc =>
    let pEnd : Vec2 α := ⟨x, y⟩
    polyArcAbs ops step rest pEnd
      (arcPath ops last rx ry xRot (⌊arcF⌋).toNat (⌊sweepF⌋).toNat pEnd step acc)
  | _, _, _ => .error .oob

/-- The `'a'` (relative arc) loop of `SubpathToPolyline`. -/
def polyArcRel (ops : TrigOps α) (step : α) : List α → Vec2 α →
    List (Vec2 α) → Except Fault (Vec2 α × List (Vec2 α))
  | [], last, acc => .ok (last, acc)
  | rx :: ry :: xRot :: arcF :: sweepF :: x :: y :: rest, last, acc =>
    let pEnd : Vec2 α := ⟨x + last.x, y + last.y⟩
    polyArcRel ops step rest pEnd
      (arcPath ops last rx ry xRot (⌊arcF⌋).toNat (⌊sweepF⌋).toNat pEnd step acc)
  | _, _, _ => .error .oob

/-- The command dispatch loop of `SubpathToPolyline`, with the running
point `last`, the polyline accumulator and a `gzerr`-logged flag.
The `'Z'`/`'z'` case reads `_polyline.front()` (undefined behaviour on
an empty polyline) and appends it when the gap to `back()` exceeds
`1e-5` (`Distance > 1e-5` expressed on squares as
`dist2 > 1e-10`), logging `gzerr` as it does so; an unknown letter logs
`gzerr` and continues. -/
def subpathLoop (ops : TrigOps α) (resolution : α) :
    List (SVGCommand α) → Vec2 α → List (Vec2 α) → Bool →
    Except Fault (Vec2 α × List (Vec2 α) × Bool)
  | [], last, acc, logged => .ok (last, acc, logged)
  | cmd :: rest, last, acc, logged =>
    if cmd.cmd = 'm' ∨ cmd.cmd = 'l' then do
      let (last', acc') ← polyPairsRel cmd.numbers last acc
      subpathLoop ops resolution rest last' acc' logged
    else if cmd.cmd = 'M' ∨ cmd.cmd = 'L' then do
      let (last', acc') ← polyPairsAbs cmd.numbers last acc
      subpathLoop ops resolution rest last' acc' logged
    else if cmd.cmd = 'C' then do
      let (last', acc') ← polyCubicAbs resolution cmd.numbers last acc
      subpathLoop ops resolution rest last' acc' logged
    else if cmd.cmd = 'c' then do
      let (last', acc') ← polyCubicRel resolution cmd.numbers last acc
      subpathLoop ops resolution rest last' acc' logged
    else if cmd.cmd = 'A' then do
      let (last', acc') ← polyArcAbs ops resolution cmd.numbers last acc
      subpathLoop ops resolution rest last' acc' logged
    else if cmd.cmd = 'a' then do
      let (last', acc') ← polyArcRel ops resolution cmd.numbers last acc
      subpathLoop ops resolution rest last' acc' logged
    else if cmd.cmd = 'Z' ∨ cmd.cmd = 'z' then
      match acc with
      | [] => .error .frontEmpty
      | f :: _ =>
        let b := acc.getLast?.getD f
        if dist2 b f > 1 / 10000000000 then
          subpathLoop ops resolution rest last (acc ++ [f]) true
        else
          subpathLoop ops resolution rest last acc logged
    else
      -- gzerr: unexpected SVGCommand value
      subpathLoop ops resolution rest last acc true

/-- Embedding of `SVGLoader::Implementation::SubpathToPolyline`: a
nonempty output buffer logs `gzerr` and returns `Vector2d::Zero`
immediately, leaving the buffer as passed. -/
def subpathToPolyline (ops : TrigOps α) (resolution : α)
    (subpath : List (SVGCommand α)) (last : Vec2 α)
    (polyline : List (Vec2 α)) :
    Except Fault (Vec2 α × List (Vec2 α) × Bool) :=
  if ¬ polyline.isEmpty then .ok (Vec2.zero, polyline, true)
  else subpathLoop ops resolution subpath last polyline false

/-- The per-subpath tessellation loop of `PathCommands`: the running
point `p` (initially the default-constructed `Vector2d`, i.e. `(0,0)`)
persists from one subpath to the next; each subpath receives a fresh
empty polyline. -/
def tessellateLoop (ops : TrigOps α) (resolution : α) :
    List (List (SVGCommand α)) → Vec2 α → List (List (Vec2 α)) → Bool →
    Except Fault (List (List (Vec2 α)) × Bool)
  | [], _, polys, logged => .ok (polys, logged)
  | sp :: rest, p, polys, logged => do
    let (p', poly, lg) ← subpathToPolyline ops resolution sp p []
    tessellateLoop ops resolution rest p' (polys ++ [poly]) (logged || lg)

/-- Embedding of `SVGLoader::Implementation::PathCommands`.  Returns
the C++ `bool` result, the updated path and a flag recording whether
any `gzerr` was emitted along the way.  Note that the source calls
`SplitSubpaths` and **discards its boolean result**: only the
subpath output parameter is used, and the final `return true` is
unconditional. -/
def pathCommands (ops : TrigOps α) (resolution : α) (fuel : ℕ)
    (tokens : List (List Char)) (path : SVGPath α) :
    Except Fault (Bool × SVGPath α × Bool) := do
  let cmds : List (SVGCommand α) := pathCmds tokens
  -- `this->SplitSubpaths(cmds, subpaths);` — result ignored
  let (splitOk, subpaths) ← splitSubpaths cmds
  let expanded ← expandCommands fuel subpaths
  let path1 := { path with subpaths := path.subpaths ++ expanded }
  let (polylines, logged) ← tessellateLoop ops resolution subpaths Vec2.zero [] false
  let path2 := { path1 with polylines := path1.polylines ++ polylines }
  let path3 := if path2.transform ≠ Mat3.identity then
      { path2 with polylines :=
          path2.polylines.map (fun poly => poly.map path2.transform.apply2) }
    else path2
  return (true, path3, !splitOk || logged)

end Tessellation

section Stitching

variable {α : Type} [LinearOrderedField α]
  [DecidableRel ((· < ·) : α → α → Prop)]

/-- Embedding of `Vector2dCompare`: squared distance strictly below the
squared tolerance. -/
def vector2dCompare (a b : Vec2 α) (tol : α) : Bool :=
  decide ((a.x - b.x) * (a.x - b.x) + (a.y - b.y) * (a.y - b.y) < tol * tol)

/-- The inner segment-building loop of `PathsToClosedPolylines` over one
polyline, with `startPoint` initialised to `poly[0]` by the caller.
A consecutive pair at `Distance < tol` is skipped with a `gzmsg`
(`Distance < tol` is expressed as `0 < tol ∧ dist2 < tol*tol`, which is
equivalent for the exact nonnegative distance) and — as in the source —
`startPoint` is **not** advanced past the skipped point. -/
def collectFromPoly (tol : α) : Vec2 α → List (Vec2 α) →
    List (Vec2 α × Vec2 α)
  | _, [] => []
  | start, p :: rest =>
    if 0 < tol ∧ dist2 p start < tol * tol then
      collectFromPoly tol start rest
    else (start, p) :: collectFromPoly tol p rest

/-- Segment extraction over the polylines of one path; the source reads
`poly[0]` unconditionally, so an empty polyline is an out-of-bounds
access. -/
def collectPolys (tol : α) : List (List (Vec2 α)) →
    List (Vec2 α × Vec2 α) → Except Fault (List (Vec2 α × Vec2 α))
  | [], acc => .ok acc
  | poly :: rest, acc =>
    match poly with
    | [] => .error .oob
    | p :: ps => collectPolys tol rest (acc ++ collectFromPoly tol p ps)

/-- The initial segment set of `PathsToClosedPolylines`: all paths'
polylines flattened in order. -/
def collectSegments (tol : α) : List (SVGPath α) →
    List (Vec2 α × Vec2 α) → Except Fault (List (Vec2 α × Vec2 α))
  | [], acc => .ok acc
  | path :: rest, acc => do
    let acc' ← collectPolys tol path.polylines acc
    collectSegments tol rest acc'

/-- The linear scan of the remaining segments for one sharing an
endpoint (within tolerance) with the chain's open end.  Both endpoint
tests of the source run in sequence, so when both endpoints match the
second assignment wins and the next point is `seg.first`.  Returns the
next point and the remaining segments with the matched one erased. -/
def scanSeg (tol : α) (last : Vec2 α) : List (Vec2 α × Vec2 α) →
    Option (Vec2 α × List (Vec2 α × Vec2 α))
  | [] => none
  | seg :: rest =>
    if vector2dCompare last seg.1 tol || vector2dCompare last seg.2 tol then
      some (if vector2dCompare last seg.2 tol then seg.1 else seg.2, rest)
    else
      match scanSeg tol last rest with
      | none => none
      | some (next, rest') => some (next, seg :: rest')

/-- The `while (segmentFound && !loopClosed)` chain-growing loop.  Each
iteration of the source removes one segment, so `segs.length` bounds the
iteration count; the explicit bound makes the terminating loop
structurally recursive (callers pass the exact length). -/
def growChain (tol : α) : ℕ → List (Vec2 α × Vec2 α) → List (Vec2 α) →
    Vec2 α → Vec2 α → List (Vec2 α) × List (Vec2 α × Vec2 α) × Bool
  | 0, segs, chain, _, _ => (chain, segs, false)
  | n + 1, segs, chain, start, last =>
    match scanSeg tol last segs with
    | none => (chain, segs, false)
    | some (next, rest) =>
      if vector2dCompare next start tol then (chain ++ [next], rest, true)
      else growChain tol n rest (chain ++ [next]) start next

/-- The outer `while (!segments.empty())` loop: seed a chain from the
front segment, grow it, and classify it closed or open.  The outer loop
also removes at least one segment per iteration, so `segs.length`
bounds it. -/
def stitchLoop (tol : α) : ℕ → List (Vec2 α × Vec2 α) →
    List (List (Vec2 α)) → List (List (Vec2 α)) →
    List (List (Vec2 α)) × List (List (Vec2 α))
  | 0, _, closed, opens => (closed, opens)
  | n + 1, segs, closed, opens =>
    match segs with
    | [] => (closed, opens)
    | s :: rest =>
      let (chain, rest', isClosed) := growChain tol rest.length rest [s.1, s.2] s.1 s.2
      if isClosed then stitchLoop tol n rest' (closed ++ [chain]) opens
      else stitchLoop tol n rest' closed (opens ++ [chain])

/-- Embedding of `SVGLoader::PathsToClosedPolylines`: the pair of
(closed polylines, open polylines) appended to the (empty) output
collections. -/
def pathsToClosedPolylines (paths : List (SVGPath α)) (tol : α) :
    Except Fault (List (List (Vec2 α)) × List (List (Vec2 α))) := do
  let segments ← collectSegments tol paths []
  return stitchLoop tol segments.length segments [] []

end Stitching

section Transform

variable {α : Type} [LinearOrderedField α] [DecidableEq α]

/-- Bool test for `std::string::find(needle) != npos`: does `needle`
occur as a contiguous substring of the haystack? -/
def containsStr (needle : List Char) : List Char → Bool
  | [] => needle.isEmpty
  | c :: rest => needle.isPrefixOf (c :: rest) || containsStr needle rest

/-- `gz::math::Angle::SetDegree` followed by `Radian()` (external
`gz-math` helper): degrees converted to radians. -/
def angleRadian (ops : TrigOps α) (deg : α) : α := deg * ops.pi / 180

/-- The per-form dispatch of `ParseTransformMatrixStr` on the text
before the `(` and the comma-separated parameter strings after it.
Returns the matrix together with a flag recording whether a `gzerr`
diagnostic was emitted.  Form recognition uses substring `find` in the
source's order; every count mismatch and the unknown-form fallthrough
return `Matrix3d::Identity` with a diagnostic. -/
def transformBody (ops : TrigOps α) (transform : List Char)
    (numberStrs : List (List Char)) : Mat3 α × Bool :=
  let numbers : List α := numberStrs.map parseDec
  if containsStr "matrix".toList transform then
    if numbers.length ≠ 6 then (Mat3.identity, true)
    else
      let a := numbers.getD 0 0
      let b := numbers.getD 1 0
      let c := numbers.getD 2 0
      let d := numbers.getD 3 0
      let e := numbers.getD 4 0
      let f := numbers.getD 5 0
      (⟨a, c, e, b, d, f, 0, 0, 1⟩, false)
  else if containsStr "skewX".toList transform then
    if numbers.length ≠ 1 then (Mat3.identity, true)
    else
      let t := ops.tan (angleRadian ops (numbers.getD 0 0))
      (⟨1, t, 0, 0, 1, 0, 0, 0, 1⟩, false)
  else if containsStr "skewY".toList transform then
    if numbers.length ≠ 1 then (Mat3.identity, true)
    else
      let t := ops.tan (angleRadian ops (numbers.getD 0 0))
      (⟨1, 0, 0, t, 1, 0, 0, 0, 1⟩, false)
  else if containsStr "scale".toList transform then
    if numbers.length = 0 ∨ 2 < numbers.length then (Mat3.identity, true)
    else
      let x := numbers.getD 0 0
      let y := if numbers.length = 2 then numbers.getD 1 0 else x
      (⟨x, 0, 0, 0, y, 0, 0, 0, 1⟩, false)
  else if containsStr "translate".toList transform then
    if numbers.length = 0 ∨ 2 < numbers.length then (Mat3.identity, true)
    else
      let x := numbers.getD 0 0
      let y := if numbers.length = 2 then numbers.getD 1 0 else 0
      (⟨1, 0, x, 0, 1, y, 0, 0, 1⟩, false)
  else if containsStr "rotate".toList transform then
    if numbers.length = 0 ∨ numbers.length = 2 ∨ 3 < numbers.length then
      (Mat3.identity, true)
    else
      let a := angleRadian ops (numbers.getD 0 0)
      let sina := ops.sin a
      let cosa := ops.cos a
      let x := if numbers.length = 3 then numbers.getD 1 0 else 0
      let y := if numbers.length = 3 then numbers.getD 2 0 else 0
      let transToXy : Mat3 α := ⟨1, 0, x, 0, 1, y, 0, 0, 1⟩
      let transFromXy : Mat3 α := ⟨1, 0, -x, 0, 1, -y, 0, 0, 1⟩
      let rot : Mat3 α := ⟨cosa, -sina, 0, sina, cosa, 0, 0, 0, 1⟩
      ((transToXy.mul rot).mul transFromXy, false)
  else
    -- gzerr: unknown transformation
    (Mat3.identity, true)

/-- Embedding of the local helper `ParseTransformMatrixStr`: an empty
value, a value without `(`, and every malformed or unrecognized form
fall back to the identity with a diagnostic.  `gz::common::split`
(external to `src/`) has `strtok` semantics, modelled by
`splitOnChar`. -/
def parseTransformMatrixStr (ops : TrigOps α) (s : List Char) : Mat3 α × Bool :=
  if s.isEmpty then (Mat3.identity, true)
  else
    match splitOnChar '(' s with
    | t0 :: t1 :: _ => transformBody ops t0 (splitOnChar ',' t1)
    | _ => (Mat3.identity, true)

end Transform

section ClaimSupport

/-!
Definitions below formalise the *wording of individual spec claims*
(clearly named `claim...`/`spec...`), to be compared against the
source-derived definitions above, plus the concrete inputs used in
counterexamples and enumerations.
-/

variable {α : Type} [LinearOrderedField α]
  [DecidableRel ((· < ·) : α → α → Prop)]

/-- The claim's condition for a malformed transform value (claim C9):
empty, no recognized form, or a parameter count outside the recognized
form's allowed range (`matrix` 6, `skewX`/`skewY` 1, `scale`/`translate`
1–2, `rotate` 1 or 3), with form recognition by substring find in the
source's order. -/
def malformedTransformValue (s : List Char) : Bool :=
  if s.isEmpty then true
  else
    match splitOnChar '(' s with
    | t0 :: t1 :: _ =>
      let n := (splitOnChar ',' t1).length
      if containsStr "matrix".toList t0 then n != 6
      else if containsStr "skewX".toList t0 then n != 1
      else if containsStr "skewY".toList t0 then n != 1
      else if containsStr "scale".toList t0 then n == 0 || decide (2 < n)
      else if containsStr "translate".toList t0 then n == 0 || decide (2 < n)
      else if containsStr "rotate".toList t0 then n == 0 || n == 2 || decide (3 < n)
      else true
    | _ => true

/-- The command-start letter set as the claim C8 states it
(case-insensitive `{a,c,m,l,v,h,z}` — note: no `q`). -/
def claimStartLetters : List Char :=
  ['a', 'A', 'c', 'C', 'm', 'M', 'l', 'L', 'v', 'V', 'h', 'H', 'z', 'Z']

/-- The amended command-start letter set: the case-insensitive set
`{a,c,m,q,l,v,h,z}` actually recognized by the tokenizer. -/
def commandStartLetters : List Char :=
  ['a', 'A', 'c', 'C', 'm', 'M', 'q', 'Q', 'l', 'L', 'v', 'V', 'h', 'H', 'z', 'Z']

/-- The token-loop behaviour as described by claim C8, written from the
claim's words: a pending command is carried explicitly as an `Option`
(emitted when a new command letter starts, and flushed at the end);
any other token contributes numbers to the pending command's running
argument list (numbers with no pending command go nowhere). -/
def pathCmdsDescribed (letters : List Char) :
    List (List Char) → List (SVGCommand α) → Option (Char × List α) →
    List (SVGCommand α)
  | [], cmds, pending =>
    (match pending with
     | some (c0, nums) => cmds ++ [⟨c0, nums⟩]
     | none => cmds)
  | tok :: rest, cmds, pending =>
    match tok with
    | [] => pathCmdsDescribed letters rest cmds
        (match pending with
         | some (c0, nums) => some (c0, nums ++ numbersOfToken [])
         | none => none)
    | c :: _ =>
      if letters.contains c then
        let cmds' := match pending with
          | some (c0, nums) => cmds ++ [⟨c0, nums⟩]
          | none => cmds
        pathCmdsDescribed letters rest cmds' (some (c, []))
      else
        pathCmdsDescribed letters rest cmds
          (match pending with
           | some (c0, nums) => some (c0, nums ++ numbersOfToken tok)
           | none => none)

/-- Claim C8's tokenizer description verbatim (letter set without `q`). -/
def pathCmdsClaim (tokens : List (List Char)) : List (SVGCommand α) :=
  pathCmdsDescribed claimStartLetters tokens [] none

/-- The amended tokenizer description (letter set with `q`). -/
def pathCmdsAmended (tokens : List (List Char)) : List (SVGCommand α) :=
  pathCmdsDescribed commandStartLetters tokens [] none

/-- Consecutive point pairs of a polyline (claim C7's "consecutive
point pairs"). -/
def consecPairs (poly : List (Vec2 α)) : List (Vec2 α × Vec2 α) :=
  poly.zip poly.tail

/-- Claim C7's description of the initial segment set of one polyline:
exactly the consecutive pairs, with any pair closer than `tol`
dropped and every other pair kept unchanged. -/
def claimInitialSegments (tol : α) (poly : List (Vec2 α)) :
    List (Vec2 α × Vec2 α) :=
  (consecPairs poly).filter
    (fun s => !(decide (0 < tol ∧ dist2 s.2 s.1 < tol * tol)))

/-- The amended point-thinning of C7: a point closer than `tol` to the
last *kept* point is dropped (the polyline's first point is always
kept). -/
def keptPoints (tol : α) : Vec2 α → List (Vec2 α) → List (Vec2 α)
  | _, [] => []
  | last, p :: rest =>
    if 0 < tol ∧ dist2 p last < tol * tol then keptPoints tol last rest
    else p :: keptPoints tol p rest

/-- Flush of the token-loop state, as done after the loop of
`PathCommands`: the pending command (sentinel `'x'` means none) is
emitted. -/
def flushCmds (r : List (SVGCommand α) × Char × List α) : List (SVGCommand α) :=
  if r.2.1 ≠ 'x' then r.1 ++ [⟨r.2.1, r.2.2⟩] else r.1

end ClaimSupport

section SquareConfigs

/-- Unit-square corner (0,0). -/
def sqP0 : Vec2 ℚ := ⟨0, 0⟩

/-- Unit-square corner (1,0). -/
def sqP1 : Vec2 ℚ := ⟨1, 0⟩

/-- Unit-square corner (1,1). -/
def sqP2 : Vec2 ℚ := ⟨1, 1⟩

/-- Unit-square corner (0,1). -/
def sqP3 : Vec2 ℚ := ⟨0, 1⟩

/-- The four unit-square edges, each as a two-point polyline. -/
def squareEdges : List (List (Vec2 ℚ)) :=
  [[sqP0, sqP1], [sqP1, sqP2], [sqP2, sqP3], [sqP3, sqP0]]

/-- A path carrying only polylines (identity transform), as consumed by
`pathsToClosedPolylines`. -/
def mkPolyPath (polys : List (List (Vec2 ℚ))) : SVGPath ℚ :=
  ⟨[], [], Mat3.identity, [], polys⟩

/-- All per-edge orientation choices of a polyline list (each edge kept
or reversed). -/
def orientationsOf : List (List (Vec2 ℚ)) → List (List (List (Vec2 ℚ)))
  | [] => [[]]
  | e :: rest =>
    (orientationsOf rest).flatMap (fun os => [e :: os, e.reverse :: os])

/-- All permutations of a list (insert-everywhere construction, kept
structurally recursive so that the kernel can evaluate it). -/
def permsOf {β : Type} : List β → List (List β)
  | [] => [[]]
  | x :: xs =>
    (permsOf xs).flatMap
      (fun p => (List.range (p.length + 1)).map
        (fun i => p.take i ++ [x] ++ p.drop i))

/-- Every supply order and orientation of the four unit-square edges. -/
def squareConfigs : List (List (List (Vec2 ℚ))) :=
  (permsOf squareEdges).flatMap orientationsOf

/-- Every supply order and orientation of the four unit-square edge
lists with one edge removed. -/
def removedEdgeConfigs : List (List (List (Vec2 ℚ))) :=
  ((List.range 4).map (fun i => squareEdges.eraseIdx i)).flatMap
    (fun es => (permsOf es).flatMap orientationsOf)

/-- Claim C3's expected outcome on a full square: exactly one closed
chain of 5 points with the start repeated at the end, and no open
chains. -/
def checkClosedCfg (polys : List (List (Vec2 ℚ))) : Bool :=
  match pathsToClosedPolylines [mkPolyPath polys] (1 / 100000) with
  | .ok (cl, op) =>
    cl.length == 1 && op.length == 0 &&
    (match cl with
     | [c] => c.length == 5 && c.head? == c.getLast?
     | _ => false)
  | .error _ => false

/-- The amended outcome with one edge removed: no closed chain, and the
open chains have point counts `[4]`, `[3,2]`, `[2,3]` or `[2,2,2]`
(how the three segments split depends on which segment seeds each
chain, because chains only grow at their open back end). -/
def checkOpenCfg (polys : List (List (Vec2 ℚ))) : Bool :=
  match pathsToClosedPolylines [mkPolyPath polys] (1 / 100000) with
  | .ok (cl, op) =>
    cl.length == 0 &&
    (op.map List.length == [4] || op.map List.length == [3, 2] ||
     op.map List.length == [2, 3] || op.map List.length == [2, 2, 2])
  | .error _ => false

/-- The default-constructed path used when evaluating `pathCommands` on
concrete inputs (identity transform, no subpaths, no polylines). -/
def emptyPathQ : SVGPath ℚ := ⟨[], [], Mat3.identity, [], []⟩

/-- C7 counterexample polyline: the middle point lies within tolerance
of the first. -/
def shortStepPoly : List (Vec2 ℚ) := [⟨0, 0⟩, ⟨0, 1/20⟩, ⟨1, 0⟩]

/-- Claim C3's stated outcome with one edge removed: zero closed chains
and exactly one open chain of 4 points. -/
def checkClaimOpenCfg (polys : List (List (Vec2 ℚ))) : Bool :=
  match pathsToClosedPolylines [mkPolyPath polys] (1 / 100000) with
  | .ok (cl, op) => cl.length == 0 && op.map List.length == [4]
  | .error _ => false

end SquareConfigs

/-!
## Helper lemmas
-/

/-- The tokenizer's lookup string is exactly the case-insensitive
command-letter set including `q`. -/
theorem lookupChars_eq : lookupChars = commandStartLetters := by decide

/-- Every recognized command letter differs from the sentinel `'x'`. -/
theorem mem_commandStartLetters_ne_sentinel {c : Char}
    (h : commandStartLetters.contains c = true) : c ≠ 'x' := by
  intro hc
  subst hc
  exact absurd h (by decide)

/-- The token loop of `PathCommands` (sentinel-character state),
followed by the final flush, computes the claim-style description with
an explicit `Option` pending command, for any state related by the
sentinel/`Option` invariant. -/
theorem pathCmdsLoop_described {α : Type} [LinearOrderedField α]
    (tokens : List (List Char)) :
    ∀ (cmds : List (SVGCommand α)) (lastCmd : Char) (numbers : List α)
      (pending : Option (Char × List α)),
      ((lastCmd = 'x' ∧ pending = none) ∨
        (lastCmd ≠ 'x' ∧ pending = some (lastCmd, numbers))) →
      flushCmds (pathCmdsLoop tokens cmds lastCmd numbers)
        = pathCmdsDescribed commandStartLetters tokens cmds pending := by
  induction tokens with
  | nil =>
    intro cmds lastCmd numbers pending hinv
    rcases hinv with ⟨hx, hp⟩ | ⟨hx, hp⟩
    · subst hx; subst hp
      simp [pathCmdsLoop, pathCmdsDescribed, flushCmds]
    · subst hp
      simp [pathCmdsLoop, pathCmdsDescribed, flushCmds, hx]
  | cons tok rest ih =>
    intro cmds lastCmd numbers pending hinv
    match tok with
    | [] =>
      rcases hinv with ⟨hx, hp⟩ | ⟨hx, hp⟩
      · subst hx; subst hp
        simp only [pathCmdsLoop, pathCmdsDescribed]
        exact ih cmds 'x' (numbers ++ numbersOfToken []) none (Or.inl ⟨rfl, rfl⟩)
      · subst hp
        simp only [pathCmdsLoop, pathCmdsDescribed]
        exact ih cmds lastCmd (numbers ++ numbersOfToken []) _ (Or.inr ⟨hx, rfl⟩)
    | c :: cs =>
      simp only [pathCmdsLoop, pathCmdsDescribed]
      rw [lookupChars_eq]
      by_cases hc : commandStartLetters.contains c = true
      · rw [if_pos hc, if_pos hc]
        have hcx : c ≠ 'x' := mem_commandStartLetters_ne_sentinel hc
        rcases hinv with ⟨hx, hp⟩ | ⟨hx, hp⟩
        · subst hx; subst hp
          simp only [ne_eq, not_true_eq_false, if_false]
          exact ih cmds c [] (some (c, [])) (Or.inr ⟨hcx, rfl⟩)
        · subst hp
          simp only [ne_eq, hx, not_false_eq_true, if_true]
          exact ih (cmds ++ [⟨lastCmd, numbers⟩]) c [] (some (c, []))
            (Or.inr ⟨hcx, rfl⟩)
      · rw [if_neg hc, if_neg hc]
        rcases hinv with ⟨hx, hp⟩ | ⟨hx, hp⟩
        · subst hx; subst hp
          exact ih cmds 'x' (numbers ++ numbersOfToken (c :: cs)) none
            (Or.inl ⟨rfl, rfl⟩)
        · subst hp
          exact ih cmds lastCmd (numbers ++ numbersOfToken (c :: cs)) _
            (Or.inr ⟨hx, rfl⟩)

/-- Closed form of the Bézier sampling loop at `t = k/n`
(`1 ≤ k`): the samples are `B(k/n), B((k+1)/n), …, B((n-1)/n)`. -/
theorem cubicBezierAux_formula {α : Type} [LinearOrderedField α] [FloorRing α]
    [DecidableRel ((· < ·) : α → α → Prop)]
    (p0 p1 p2 p3 : Vec2 α) (n : ℕ) (hn : 0 < n) :
    ∀ d k : ℕ, 0 < k → n - k = d →
      cubicBezierAux p0 p1 p2 p3 (1 / (n : α)) ((k : α) / (n : α))
        = (List.range d).map
            (fun j => bezierInterpolate (((k + j : ℕ) : α) / (n : α)) p0 p1 p2 p3) := by
  intro d
  induction d with
  | zero =>
    intro k hk hd
    have hnk : n ≤ k := by omega
    rw [cubicBezierAux]
    rw [dif_neg]
    · simp
    · rintro ⟨hs, ht⟩
      have h1 : (1 : α) ≤ (k : α) / (n : α) := by
        rw [le_div_iff₀ (by exact_mod_cast hn)]
        simpa using (by exact_mod_cast hnk : (n : α) ≤ (k : α))
      linarith
  | succ d ih =>
    intro k hk hd
    have hkn : k < n := by omega
    have hnpos : (0 : α) < (n : α) := by exact_mod_cast hn
    rw [cubicBezierAux]
    rw [dif_pos ⟨by positivity, by rw [div_lt_one hnpos]; exact_mod_cast hkn⟩]
    have hstep : (k : α) / (n : α) + 1 / (n : α) = ((k + 1 : ℕ) : α) / (n : α) := by
      push_cast
      rw [div_add_div_same]
    rw [hstep, ih (k + 1) (by omega) (by omega), List.range_succ_eq_map]
    simp only [List.map_cons, List.map_map, Nat.add_zero]
    congr 1
    apply List.map_congr_left
    intro j _
    simp only [Function.comp_apply, Nat.succ_eq_add_one]
    congr 2
    push_cast
    ring

/-- The expansion loop for a letter with no arity entry (`q`) carrying
numbers never advances, whatever the fuel. -/
theorem expandGroupLoop_q_stuck (fuel : ℕ) :
    ∀ acc : List (SVGCommand ℚ),
      expandGroupLoop 'q' [1, 2] 0 fuel 0 acc = .error .noFuel := by
  induction fuel with
  | zero => intro acc; rfl
  | succ n ih => intro acc; simpa [expandGroupLoop] using ih _

/-- The expansion loop for the move command `m 0 0`, once past its
single group, stops for any remaining fuel. -/
theorem expandGroupLoop_m_done (f : ℕ) (acc : List (SVGCommand ℚ)) :
    expandGroupLoop 'm' [0, 0] 2 f 2 acc = .ok acc := by
  cases f <;> rfl

/-!
## Claim theorems
-/

/-- C1: for every token list yielding zero commands, `SplitSubpaths`
does report the error (`gzerr`, returning `false`), but `PathCommands`
ignores that result and returns `true` — a *success* indicator — to its
caller, instead of the failure indicator the claim (and the doc comment
`\return True on success`) requires. -/
theorem c1_zero_commands_returns_success (ops : TrigOps ℚ) (resolution : ℚ)
    (fuel : ℕ) (tokens : List (List Char))
    (h : pathCmds (α := ℚ) tokens = []) :
    pathCommands ops resolution fuel tokens emptyPathQ
        = .ok (true, emptyPathQ, true) ∧
      splitSubpaths (pathCmds (α := ℚ) tokens) = .ok (false, []) := by
  constructor
  · unfold pathCommands
    rw [h]
    rfl
  · rw [h]
    rfl

/-- Witness for C1 at the empty token list. -/
theorem c1_zero_commands_returns_success_witness :
    pathCmds (α := ℚ) [] = [] ∧
      (pathCommands ratOpsZero 1 0 [] emptyPathQ = .ok (true, emptyPathQ, true) ∧
        splitSubpaths (pathCmds (α := ℚ) []) = .ok (false, [])) :=
  ⟨rfl, c1_zero_commands_returns_success ratOpsZero 1 0 [] rfl⟩

/-- C2: a move command carrying 3 numbers (not a multiple of its arity
2) is *not* rejected as a malformed-command error: `ExpandCommands`
reads `numbers[3]` out of bounds (undefined behaviour, `Fault.oob`)
and never reports anything. -/
theorem c2_bad_arity_reads_out_of_bounds :
    expandCommands 10 [[⟨'m', [(1 : ℚ), 2, 3]⟩]] = .error .oob := rfl

/-- C3 counterexample: with the edge (0,1)–(0,0) removed and the three
remaining edges supplied in the order BC, AB, CD, stitching seeds the
first chain at the middle segment BC and can only grow at the back, so
it produces *two* open chains (3 points and 2 points), not one open
chain of 4 points as the claim states. -/
theorem c3_counterexample_two_open_chains :
    checkClaimOpenCfg [[sqP1, sqP2], [sqP0, sqP1], [sqP2, sqP3]] = false ∧
      pathsToClosedPolylines
          [mkPolyPath [[sqP1, sqP2], [sqP0, sqP1], [sqP2, sqP3]]] (1 / 100000)
        = .ok ([], [[sqP1, sqP2, sqP3], [sqP0, sqP1]]) := by
  constructor
  · decide!
  · decide!

/-- C3 (amended): over every supply order and orientation of the four
unit-square edges the reconstructor at `tol = 1e-5` produces exactly one
closed chain of 5 points (start repeated at the end) and no open chain;
with any one edge removed it produces zero closed chains and one to
three open chains, with point counts `[4]`, `[3,2]`, `[2,3]` or
`[2,2,2]` depending on which segment seeds each chain. -/
theorem c3_square_stitching :
    (squareConfigs.all checkClosedCfg && removedEdgeConfigs.all checkOpenCfg)
      = true := by
  decide!

/-- C4: the cubic-Bézier tessellator with the constructor resolution
`1/max(1,samples)` appends exactly the samples `B(k/n)` for
`k = 1, …, n-1` (in increasing order, i.e. at `t = step, 2·step, …`
while `t < 1`) and then the exact endpoint `p3`. -/
theorem c4_cubicBezier_samples {α : Type} [LinearOrderedField α] [FloorRing α]
    [DecidableRel ((· < ·) : α → α → Prop)]
    (samples : ℕ) (p0 p1 p2 p3 : Vec2 α) (points : List (Vec2 α)) :
    cubicBezier p0 p1 p2 p3 (svgResolution samples) points
      = points ++ (List.range (max 1 samples - 1)).map
          (fun j => bezierInterpolate
            (((j + 1 : ℕ) : α) / ((max 1 samples : ℕ) : α)) p0 p1 p2 p3)
        ++ [p3] := by
  have hn : 0 < max 1 samples := le_max_left _ _
  unfold cubicBezier svgResolution
  have hf := cubicBezierAux_formula p0 p1 p2 p3 (max 1 samples) hn
    (max 1 samples - 1) 1 (by omega) (by omega)
  rw [Nat.cast_one] at hf
  rw [hf]
  congr 2
  apply List.map_congr_left
  intro j _
  congr 2
  push_cast
  ring

/-- C5: an arc whose start/end points are less than `1e-6` apart
(squared distance below `1e-12`), or whose `rx` or `ry` is below
`1e-6`, tessellates to exactly the end point appended to the output —
the straight-line fallback — and never to a curve sample. -/
theorem c5_arc_degenerate_line {α : Type} [LinearOrderedField α] [FloorRing α]
    [DecidableRel ((· < ·) : α → α → Prop)] [DecidableEq α]
    (ops : TrigOps α) (p0 : Vec2 α) (rx0 ry0 rotxDeg : α)
    (largeArc sweep : ℕ) (pEnd : Vec2 α) (step : α) (points : List (Vec2 α))
    (h : (p0.x - pEnd.x) * (p0.x - pEnd.x) + (p0.y - pEnd.y) * (p0.y - pEnd.y)
          < 1 / 1000000000000 ∨ rx0 < 1 / 1000000 ∨ ry0 < 1 / 1000000) :
    arcPath ops p0 rx0 ry0 rotxDeg largeArc sweep pEnd step points
      = points ++ [pEnd] := by
  simp only [arcPath]
  rw [if_pos h]

/-- Witness for C5: a zero `rx` radius forces the straight-line
fallback. -/
theorem c5_arc_degenerate_line_witness :
    arcPath ratOpsZero ⟨0, 0⟩ 0 1 0 0 0 ⟨5, 5⟩ (1 / 10) []
      = [(⟨5, 5⟩ : Vec2 ℚ)] :=
  c5_arc_degenerate_line ratOpsZero ⟨0, 0⟩ 0 1 0 0 0 ⟨5, 5⟩ (1 / 10) []
    (Or.inr (Or.inl (by norm_num)))

/-- C6: a nonempty command list whose first command is not a move
command makes `SplitSubpaths` call `back()` on the still-empty subpath
vector — undefined behaviour (`Fault.backEmpty`), not the defined
structural-error result the claim requires. -/
theorem c6_first_command_not_move_ub :
    splitSubpaths [⟨'l', [(0 : ℚ), 0]⟩] = .error .backEmpty := rfl

/-- C7 counterexample: in the polyline `(0,0), (0,1/20), (1,0)` with
`tol = 1/10` the first pair is dropped as short, but the code keeps the
*old* start point, emitting the segment `((0,0),(1,0))` — not the
consecutive pair `((0,1/20),(1,0))` the claim predicts. -/
theorem c7_counterexample_dropped_pair :
    collectSegments (1 / 10 : ℚ) [mkPolyPath [shortStepPoly]] []
      ≠ .ok (claimInitialSegments (1 / 10) shortStepPoly) := by
  decide!

/-- C7 (amended): the initial segment set of a (nonempty) polyline is
the list of consecutive pairs of its *kept* points: a point within
`tol` of the last kept point is dropped (and reported), and the next
segment runs from the last kept point. -/
theorem c7_segments_consecutive_kept_pairs {α : Type} [LinearOrderedField α]
    [DecidableRel ((· < ·) : α → α → Prop)] (tol : α) :
    ∀ (rest : List (Vec2 α)) (start : Vec2 α),
      collectFromPoly tol start rest
        = consecPairs (start :: keptPoints tol start rest) := by
  intro rest
  induction rest with
  | nil => intro start; rfl
  | cons p rest ih =>
    intro start
    by_cases h : 0 < tol ∧ dist2 p start < tol * tol
    · rw [collectFromPoly, if_pos h, keptPoints, if_pos h]
      exact ih start
    · rw [collectFromPoly, if_neg h, keptPoints, if_neg h]
      rw [ih p]
      rfl

/-- C8 counterexample: the tokenizer's lookup set contains `q`/`Q`, so
the token `q` starts a new command; under the claim's letter set
(without `q`) it would be parsed as a number (`atof("q") = 0`) appended
to the pending move command. -/
theorem c8_counterexample_q_token :
    pathCmds (α := ℚ) [['m'], "0,0".toList, ['q'], "1,2".toList]
      ≠ pathCmdsClaim [['m'], "0,0".toList, ['q'], "1,2".toList] := by
  decide!

/-- C8 (amended): the token loop behaves exactly as the claim describes
once `q` is added to the case-insensitive command-letter set: a token
whose first character is in the set starts a new command (emitting the
pending one, if any), and every other token contributes comma-separated
numbers to the pending command's argument list. -/
theorem c8_tokenizer_described {α : Type} [LinearOrderedField α]
    (tokens : List (List Char)) :
    pathCmds (α := α) tokens = pathCmdsAmended tokens := by
  have h := pathCmdsLoop_described (α := α) tokens [] 'x' [] none
    (Or.inl ⟨rfl, rfl⟩)
  unfold pathCmds pathCmdsAmended
  rw [← h]
  rfl

/-- C9: every malformed transform value — empty, unrecognized, or a
recognized form with a parameter count outside its allowed range —
makes `ParseTransformMatrixStr` return the identity matrix together
with a (non-fatal) diagnostic. -/
theorem c9_malformed_transform_identity {α : Type} [LinearOrderedField α]
    [DecidableEq α] (ops : TrigOps α) (s : List Char)
    (h : malformedTransformValue s = true) :
    parseTransformMatrixStr ops s = (Mat3.identity, true) := by
  unfold parseTransformMatrixStr
  unfold malformedTransformValue at h
  by_cases hs : s.isEmpty
  · simp [hs]
  · simp only [hs, Bool.false_eq_true, if_false] at h ⊢
    match hsplit : splitOnChar '(' s with
    | [] => simp [hsplit]
    | [t0] => simp [hsplit]
    | t0 :: t1 :: rest =>
      simp only [hsplit] at h ⊢
      unfold transformBody
      by_cases h1 : containsStr "matrix".toList t0 = true
      · simp only [h1, if_true, List.length_map] at h ⊢
        have hn : (splitOnChar ',' t1).length ≠ 6 := by simpa using h
        rw [if_pos hn]
      · simp only [h1, Bool.false_eq_true, if_false] at h ⊢
        by_cases h2 : containsStr "skewX".toList t0 = true
        · simp only [h2, if_true, List.length_map] at h ⊢
          have hn : (splitOnChar ',' t1).length ≠ 1 := by simpa using h
          rw [if_pos hn]
        · simp only [h2, Bool.false_eq_true, if_false] at h ⊢
          by_cases h3 : containsStr "skewY".toList t0 = true
          · simp only [h3, if_true, List.length_map] at h ⊢
            have hn : (splitOnChar ',' t1).length ≠ 1 := by simpa using h
            rw [if_pos hn]
          · simp only [h3, Bool.false_eq_true, if_false] at h ⊢
            by_cases h4 : containsStr "scale".toList t0 = true
            · simp only [h4, if_true, List.length_map] at h ⊢
              have hn : (splitOnChar ',' t1).length = 0 ∨
                  2 < (splitOnChar ',' t1).length := by
                simpa [Bool.or_eq_true, decide_eq_true_eq] using h
              rw [if_pos hn]
            · simp only [h4, Bool.false_eq_true, if_false] at h ⊢
              by_cases h5 : containsStr "translate".toList t0 = true
              · simp only [h5, if_true, List.length_map] at h ⊢
                have hn : (splitOnChar ',' t1).length = 0 ∨
                    2 < (splitOnChar ',' t1).length := by
                  simpa [Bool.or_eq_true, decide_eq_true_eq] using h
                rw [if_pos hn]
              · simp only [h5, Bool.false_eq_true, if_false] at h ⊢
                by_cases h6 : containsStr "rotate".toList t0 = true
                · simp only [h6, if_true, List.length_map] at h ⊢
                  have hn : (splitOnChar ',' t1).length = 0 ∨
                      (splitOnChar ',' t1).length = 2 ∨
                      3 < (splitOnChar ',' t1).length := by
                    simpa [Bool.or_eq_true, decide_eq_true_eq, or_assoc] using h
                  rw [if_pos hn]
                · simp only [h6, Bool.false_eq_true, if_false]

/-- Witness for C9: `scale` with three parameters yields the identity
and a diagnostic. -/
theorem c9_malformed_transform_identity_witness :
    malformedTransformValue "scale(1,2,3".toList = true ∧
      parseTransformMatrixStr ratOpsZero "scale(1,2,3".toList
        = (Mat3.identity, true) :=
  ⟨by decide, c9_malformed_transform_identity ratOpsZero _ (by decide)⟩

/-- C10: command expansion does *not* terminate on a `q` command
carrying numbers: its arity lookup yields 0, the grouping loop never
advances, and no amount of fuel completes it (the source loops
forever). -/
theorem c10_expand_q_never_terminates (fuel : ℕ) :
    expandCommands fuel [[⟨'m', [(0 : ℚ), 0]⟩, ⟨'q', [1, 2]⟩]]
      = .error .noFuel := by
  cases fuel with
  | zero => rfl
  | succ f =>
    have hm : expandOneCommand (f + 1) (⟨'m', [(0 : ℚ), 0]⟩ : SVGCommand ℚ) []
        = .ok [⟨'m', [0, 0]⟩] := by
      show expandGroupLoop 'm' [0, 0] 2 f 2 [⟨'m', [0, 0]⟩] = .ok [⟨'m', [0, 0]⟩]
      exact expandGroupLoop_m_done f _
    have hq : expandOneCommand (f + 1) (⟨'q', [(1 : ℚ), 2]⟩ : SVGCommand ℚ)
          [⟨'m', [0, 0]⟩]
        = .error .noFuel := by
      show expandGroupLoop 'q' [1, 2] 0 f 0 [⟨'m', [0, 0]⟩, ⟨'q', []⟩]
        = .error .noFuel
      exact expandGroupLoop_q_stuck f _
    simp only [expandCommands, expandSubpath, hm]
    change (do
      let sub ← (do
        let subpath' ← expandOneCommand (f + 1)
          (⟨'q', [(1 : ℚ), 2]⟩ : SVGCommand ℚ) [⟨'m', [0, 0]⟩]
        Except.ok subpath')
      let subs ← (Except.ok [] : Except Fault (List (List (SVGCommand ℚ))))
      pure (sub :: subs)) = Except.error Fault.noFuel
    rw [hq]
    rfl

end SVGSpec
